import Mathlib

/-!
Verification development for the repo-to-mermaid generator.

This file gives a shallow embedding, in Lean 4, of the core components of the
repository (`src/core/TokenCalculator.ts`, `src/core/BucketManager.ts`,
`src/output/MermaidGenerator.ts`) and proves or refutes the frozen claims
about them.  Definitions are translated from the TypeScript source:

* pure TypeScript methods become Lean functions;
* the `BucketManager` loop state (`buckets`, `currentBucket`,
  `currentTokenCount`, `skippedFiles`) becomes an explicit state record
  threaded through a fold;
* TypeScript `number` values that the program only ever instantiates with
  non-negative integers (token counts, sizes) become `Nat`;
* the floating-point soft threshold (default `0.9`) is modelled as the exact
  rational `thresholdNum / thresholdDen`, and the source comparison
  `a > maxTokensPerBucket * tokenThreshold` becomes the exact
  cross-multiplied comparison `a * thresholdDen > maxTokensPerBucket *
  thresholdNum`;
* fallible asynchronous code (`processBuckets`, which awaits an LLM client
  and rethrows its errors) becomes a function into `Except`;
* JavaScript regular-expression `replace` calls are embedded as explicit
  left-to-right scanners over `List Char` that implement each concrete
  pattern's leftmost-match, greedy-with-backtracking and global-replace
  semantics.
-/

/-! ### Data model (`src/types.ts`) -/

/-- Item record from `src/types.ts` (`FileInfo`). -/
structure FileInfo where
  path : String
  content : String
  size : Nat
  extension : String
  estimated_tokens : Nat
deriving DecidableEq, Repr, Inhabited

/-- Bucket record from `src/types.ts` (`ProcessingBucket`).  The two trailing
fields are optional in TypeScript and only populated after generation. -/
structure ProcessingBucket where
  files : List FileInfo
  total_tokens : Nat
  summary : Option String := none
  mermaid_content : Option String := none
deriving DecidableEq, Repr, Inhabited

/-- Skip record pushed onto `BucketManager.skippedFiles`
(`src/core/BucketManager.ts`, lines 33-41). -/
structure SkippedFile where
  path : String
  size : Nat
  reason : String
deriving DecidableEq, Repr, Inhabited

/-- Accumulator state from `src/types.ts` (`ProcessingState`). -/
structure ProcessingState where
  current_bucket_index : Nat
  total_buckets : Nat
  processed_files : Nat
  total_files : Nat
  accumulated_summary : String
  accumulated_mermaid : String
deriving DecidableEq, Repr, Inhabited

/-- Generator response from `src/types.ts` (`LLMResponse`). -/
structure LLMResponse where
  summary : String
  mermaid_content : String
  tokens_used : Nat
deriving DecidableEq, Repr, Inhabited

/-! ### WeightEstimator (`src/core/TokenCalculator.ts`)

`BucketManager` constructs its `TokenCalculator` with the default
`tokenPerCharRatio = 4`; the ratio is embedded as that constant. -/

/-- Split a character list at every occurrence of a separator, like
JavaScript `String.prototype.split` with a single-character separator. -/
def splitListOn (sep : Char) : List Char → List (List Char)
  | [] => [[]]
  | c :: t =>
    match splitListOn sep t with
    | [] => [[c]]
    | g :: gs => if c = sep then [] :: g :: gs else (c :: g) :: gs

/-- Split a character list at every character satisfying `p`; consecutive
separators yield empty groups, which callers filter away (this matches the
word list produced by splitting on the regex class `[...]+` and filtering
empty strings, as line 74 of `TokenCalculator.ts` does). -/
def splitPred (p : Char → Bool) : List Char → List (List Char)
  | [] => [[]]
  | c :: t =>
    match splitPred p t with
    | [] => [[c]]
    | g :: gs => if p c then [] :: g :: gs else (c :: g) :: gs

/-- Test whether `pre` is a prefix of `s` (Boolean, executable). -/
def startsWithL : List Char → List Char → Bool
  | [], _ => true
  | _ :: _, [] => false
  | p :: ps, c :: cs => p = c && startsWithL ps cs

/-- Leading/trailing-whitespace trim on a character list, modelling
JavaScript `String.prototype.trim`. -/
def trimL (l : List Char) : List Char :=
  ((l.dropWhile Char.isWhitespace).reverse.dropWhile Char.isWhitespace).reverse

/-- Apostrophe character, written by code point to keep it out of literals. -/
def aposChar : Char := Char.ofNat 39

/-- Backtick character, written by code point to keep it out of literals. -/
def backtickChar : Char := Char.ofNat 96

/-- Comment-line test from `TokenCalculator.isCommentLine`: the line (already
trimmed) starts with one of the fixed leading comment markers. -/
def isCommentLine (line : List Char) : Bool :=
  startsWithL ['/', '/'] line ||
  startsWithL ['#'] line ||
  startsWithL ['/', '*'] line ||
  startsWithL ['*'] line ||
  startsWithL ['<', '!', '-', '-'] line ||
  startsWithL [aposChar] line ||
  startsWithL [';'] line

/-- Delimiter class of `TokenCalculator.estimateLineTokens`, the regex class
`[\s,;(){}[\]"'` followed by a backtick `]`. -/
def isWordDelim (c : Char) : Bool :=
  c.isWhitespace || c = ',' || c = ';' || c = '(' || c = ')' ||
  c = '{' || c = '}' || c = '[' || c = ']' || c = '"' ||
  c = aposChar || c = backtickChar

/-- Structural-punctuation class `[{}();,]` of
`TokenCalculator.estimateLineTokens`. -/
def isSpecialPunct (c : Char) : Bool :=
  c = '{' || c = '}' || c = '(' || c = ')' || c = ';' || c = ','

/-- Per-line token estimate (`TokenCalculator.estimateLineTokens`):
`ceil(word.length / 4)` per word plus `0.5` per structural punctuation
character, rounded up, with minimum 1.  The half-token contributions are
tracked in half units: with `n` the word-token sum and `sc` the punctuation
count, `ceil(n + sc/2) = (2n + sc + 1) / 2` in integer division. -/
def estimateLineTokens (line : List Char) : Nat :=
  let words := (splitPred isWordDelim line).filter (· ≠ [])
  let wordTokens := words.foldl (fun t w => t + (w.length + 3) / 4) 0
  let sc := (line.filter isSpecialPunct).length
  max 1 ((2 * wordTokens + sc + 1) / 2)

/-- Content token estimate (`TokenCalculator.estimateTokens`): split into
lines, drop blank and comment-only lines, sum the per-line estimates, and
return at least 1. -/
def estimateTokens (content : List Char) : Nat :=
  let lines := splitListOn '\n' content
  let total := lines.foldl
    (fun acc line =>
      let t := trimL line
      if t = [] || isCommentLine t then acc else acc + estimateLineTokens t) 0
  max 1 total

/-- Weight of an item (`TokenCalculator.calculateFileTokens`): use the
pre-computed `estimated_tokens` when positive, otherwise estimate from the
content.  (`estimated_tokens` is a required field of the TypeScript
interface, so the `undefined` guard of the source is vacuous here.) -/
def calculateFileTokens (f : FileInfo) : Nat :=
  if 0 < f.estimated_tokens then f.estimated_tokens else estimateTokens f.content.data

/-! ### BucketPlanner (`src/core/BucketManager.ts`) -/

/-- Constructor parameters of `BucketManager`.  `maxTokensPerBucket` is the
target capacity; the soft threshold (a float, default `0.9`) is the exact
rational `thresholdNum / thresholdDen`. -/
structure BMCfg where
  maxTokensPerBucket : Nat
  thresholdNum : Nat := 9
  thresholdDen : Nat := 10
deriving DecidableEq, Repr

/-- Hard per-bucket limit, fixed to `100000` by the `BucketManager`
constructor (line 15). -/
def hardLimit : Nat := 100000

/-- Soft-threshold comparison `x > maxTokensPerBucket * tokenThreshold` of
line 51, as the exact cross-multiplied integer comparison. -/
def overSoftThreshold (cfg : BMCfg) (x : Nat) : Prop :=
  cfg.maxTokensPerBucket * cfg.thresholdNum < x * cfg.thresholdDen

instance (cfg : BMCfg) (x : Nat) : Decidable (overSoftThreshold cfg x) :=
  inferInstanceAs (Decidable (_ < _))

/-- Bucket constructor `BucketManager.createBucket` (lines 77-82). -/
def createBucket (files : List FileInfo) (totalTokens : Nat) : ProcessingBucket :=
  { files := files, total_tokens := totalTokens }

/-- Skip record built at lines 34-38 of `BucketManager.ts`. -/
def mkSkipRecord (f : FileInfo) (fileTokens : Nat) : SkippedFile :=
  { path := f.path
    size := f.size
    reason := "File exceeds hard limit of " ++ Nat.repr hardLimit ++
      " tokens (estimated: " ++ Nat.repr fileTokens ++ " tokens)" }

/-- Descending stable insertion of one item, keyed on `estimated_tokens`:
`f` is placed before the first strictly lighter element. -/
def insertDesc (f : FileInfo) : List FileInfo → List FileInfo
  | [] => [f]
  | g :: rest =>
    if g.estimated_tokens < f.estimated_tokens then f :: g :: rest
    else g :: insertDesc f rest

/-- Largest-first sort `BucketManager.sortFilesByTokens` (lines 87-89):
`[...files].sort((a, b) => b.estimated_tokens - a.estimated_tokens)`, i.e. a
stable descending sort of a copy, keyed on `estimated_tokens`, embedded as a
stable insertion sort. -/
def sortFilesByTokens (files : List FileInfo) : List FileInfo :=
  files.foldr insertDesc []

/-- Loop state of `createBuckets` (lines 22-24 plus the instance field
`skippedFiles`). -/
structure BMAcc where
  buckets : List ProcessingBucket
  currentBucket : List FileInfo
  currentTokenCount : Nat
  skippedFiles : List SkippedFile
deriving DecidableEq, Repr

/-- One iteration of the `createBuckets` loop (lines 29-64): skip an item
over the hard limit, close the current bucket when the item would push it
past the hard limit or the soft threshold, otherwise add the item. -/
def createBucketsStep (cfg : BMCfg) (acc : BMAcc) (file : FileInfo) : BMAcc :=
  let fileTokens := calculateFileTokens file
  if hardLimit < fileTokens then
    { acc with skippedFiles := acc.skippedFiles ++ [mkSkipRecord file fileTokens] }
  else if hardLimit < acc.currentTokenCount + fileTokens ∧ 0 < acc.currentBucket.length then
    { acc with
      buckets := acc.buckets ++ [createBucket acc.currentBucket acc.currentTokenCount]
      currentBucket := [file]
      currentTokenCount := fileTokens }
  else if overSoftThreshold cfg (acc.currentTokenCount + fileTokens) ∧ 0 < acc.currentBucket.length then
    { acc with
      buckets := acc.buckets ++ [createBucket acc.currentBucket acc.currentTokenCount]
      currentBucket := [file]
      currentTokenCount := fileTokens }
  else
    { acc with
      currentBucket := acc.currentBucket ++ [file]
      currentTokenCount := acc.currentTokenCount + fileTokens }

/-- Result of one `createBuckets` call: the returned buckets, the skip
records pushed during the call, and the contents of the caller's `files`
array after the call.  The source sorts a copy (`[...files].sort`), so the
caller's array is read but never written; an in-place `files.sort()` would
instead have set `filesAfter := sortFilesByTokens files`. -/
structure CreateBucketsResult where
  buckets : List ProcessingBucket
  skippedFiles : List SkippedFile
  filesAfter : List FileInfo
deriving DecidableEq, Repr

/-- Translation of `BucketManager.createBuckets` (lines 21-72), run on a manager with an
empty skip list: fold the loop body over the sorted copy, then close the
last bucket if non-empty. -/
def createBuckets (cfg : BMCfg) (files : List FileInfo) : CreateBucketsResult :=
  let sortedFiles := sortFilesByTokens files
  let fin := sortedFiles.foldl (createBucketsStep cfg) ⟨[], [], 0, []⟩
  let buckets :=
    if 0 < fin.currentBucket.length then
      fin.buckets ++ [createBucket fin.currentBucket fin.currentTokenCount]
    else fin.buckets
  ⟨buckets, fin.skippedFiles, files⟩

/-- Translation of `BucketManager.addFileToBucket` (lines 115-125): returns the source's
Boolean result together with the bucket's contents after the call (the
source mutates the bucket in place when it fits). -/
def addFileToBucket (cfg : BMCfg) (bucket : ProcessingBucket) (file : FileInfo) :
    Bool × ProcessingBucket :=
  let fileTokens := calculateFileTokens file
  if bucket.total_tokens + fileTokens ≤ cfg.maxTokensPerBucket then
    (true, { bucket with
      files := bucket.files ++ [file]
      total_tokens := bucket.total_tokens + fileTokens })
  else
    (false, bucket)

/-- One iteration of the `splitBucket` loop (lines 158-169): close the
current bucket when the item would push it past the target capacity,
otherwise add the item.  There is no hard-limit skip here. -/
def splitBucketStep (cfg : BMCfg) (acc : BMAcc) (file : FileInfo) : BMAcc :=
  let fileTokens := calculateFileTokens file
  if cfg.maxTokensPerBucket < acc.currentTokenCount + fileTokens ∧ 0 < acc.currentBucket.length then
    { acc with
      buckets := acc.buckets ++ [createBucket acc.currentBucket acc.currentTokenCount]
      currentBucket := [file]
      currentTokenCount := fileTokens }
  else
    { acc with
      currentBucket := acc.currentBucket ++ [file]
      currentTokenCount := acc.currentTokenCount + fileTokens }

/-- Translation of `BucketManager.splitBucket` (lines 146-176). -/
def splitBucket (cfg : BMCfg) (bucket : ProcessingBucket) : List ProcessingBucket :=
  if bucket.total_tokens ≤ cfg.maxTokensPerBucket then [bucket]
  else
    let sortedFiles := sortFilesByTokens bucket.files
    let fin := sortedFiles.foldl (splitBucketStep cfg) ⟨[], [], 0, []⟩
    if 0 < fin.currentBucket.length then
      fin.buckets ++ [createBucket fin.currentBucket fin.currentTokenCount]
    else fin.buckets

/-- JavaScript `a || b` on optional strings (`undefined` and `""` are
falsy), as used at lines 188-189 of `BucketManager.ts`. -/
def jsOrString (a b : Option String) : Option String :=
  match a with
  | none => b
  | some s => if s = "" then b else a

/-- Translation of `BucketManager.mergeBuckets` (lines 181-194): the optional merged
bucket, together with the contents of both argument buckets after the call
(the source reads the inputs and builds a fresh object, performing no field
writes, so both come back unchanged). -/
def mergeBuckets (cfg : BMCfg) (bucket1 bucket2 : ProcessingBucket) :
    Option ProcessingBucket × ProcessingBucket × ProcessingBucket :=
  let totalTokens := bucket1.total_tokens + bucket2.total_tokens
  if totalTokens ≤ cfg.maxTokensPerBucket then
    (some { files := bucket1.files ++ bucket2.files
            total_tokens := totalTokens
            summary := jsOrString bucket1.summary bucket2.summary
            mermaid_content := jsOrString bucket1.mermaid_content bucket2.mermaid_content },
     bucket1, bucket2)
  else
    (none, bucket1, bucket2)

/-! ### Accumulator (`src/output/MermaidGenerator.ts`) -/

/-- Translation of `MermaidGenerator.mergeSummaries` (lines 225-236); JavaScript `!s` is
true exactly for the empty string here. -/
def mergeSummaries (existing newSummary : String) : String :=
  if existing = "" then newSummary
  else if newSummary = "" then existing
  else existing ++ "\n\n--- Additional Analysis ---\n\n" ++ newSummary

/-- Translation of `MermaidGenerator.appendMermaidFragment` (lines 242-246). -/
def appendMermaidFragment (existing fragment : String) : String :=
  if fragment = "" then existing
  else if existing = "" then fragment
  else existing ++ "\n\n--- FRAGMENT ---\n\n" ++ fragment

/-- The generator collaborator (`LLMInterface.processBucket`): called with a
bucket and the accumulated summary and diagram, it either returns a response
or fails with an error of type `E` (a rejected promise in the source). -/
def Generator (E : Type) : Type :=
  ProcessingBucket → String → String → Except E LLMResponse

/-- Loop of `MermaidGenerator.processBuckets` (lines 38-74), indexed by the
current bucket index.  Besides the source's result (the final state, or the
rethrown generator error) it returns the trace of generator invocations —
each submitted bucket with the summary and diagram arguments passed to it —
which the source performs but does not record.  The source also writes the
response onto the bucket object (`bucket.summary = ...`); that decoration is
not part of the returned state and is not modelled. -/
def processBucketsGo {E : Type} (gen : Generator E) :
    List ProcessingBucket → Nat → ProcessingState →
    Except E ProcessingState × List (ProcessingBucket × String × String)
  | [], _, state => (.ok state, [])
  | bucket :: rest, i, state =>
    let st := { state with current_bucket_index := i }
    match gen bucket st.accumulated_summary st.accumulated_mermaid with
    | .error e => (.error e, [(bucket, st.accumulated_summary, st.accumulated_mermaid)])
    | .ok response =>
      let st2 := { st with
        accumulated_summary := mergeSummaries st.accumulated_summary response.summary
        accumulated_mermaid := appendMermaidFragment st.accumulated_mermaid response.mermaid_content
        processed_files := st.processed_files + bucket.files.length }
      let r := processBucketsGo gen rest (i + 1) st2
      (r.1, (bucket, st.accumulated_summary, st.accumulated_mermaid) :: r.2)

/-- Translation of `MermaidGenerator.processBuckets` (lines 24-77): initialize the state
(`existingMermaid || ''` seeds the accumulated diagram) and run the loop. -/
def processBuckets {E : Type} (gen : Generator E) (buckets : List ProcessingBucket)
    (existingMermaid : Option String) :
    Except E ProcessingState × List (ProcessingBucket × String × String) :=
  let state : ProcessingState :=
    { current_bucket_index := 0
      total_buckets := buckets.length
      processed_files := 0
      total_files := (buckets.map (·.files.length)).sum
      accumulated_summary := ""
      accumulated_mermaid := existingMermaid.getD "" }
  processBucketsGo gen buckets 0 state

/-! ### Sanitize (`MermaidGenerator.sanitizeMermaidContent`, lines 94-163)

The method is a chain of fourteen JavaScript global regex replacements.
Each is embedded as a matcher `List Char → Option (List Char × List Char)`
that, at the current position, either fails or returns the replacement text
together with the unconsumed remainder, reproducing that pattern's
leftmost-match, greedy-with-backtracking semantics; `replaceScan` drives a
matcher down the string exactly like a global `replace` (on a failed
attempt the scanner emits one character and retries at the next position,
as the regex engine advances its start index).  Every matcher consumes at
least one character on success, so fuel equal to the string length makes
the scan total. -/

/-- Global-replace driver: structural recursion on fuel, one unit per
consumed character. -/
def replaceScan (m : List Char → Option (List Char × List Char)) :
    Nat → List Char → List Char
  | 0, s => s
  | _ + 1, [] => []
  | fuel + 1, c :: t =>
    match m (c :: t) with
    | some (rep, rest) => rep ++ replaceScan m fuel rest
    | none => c :: replaceScan m fuel t

/-- Run a matcher as a global replacement over a whole character list. -/
def runReplace (m : List Char → Option (List Char × List Char))
    (s : List Char) : List Char :=
  replaceScan m s.length s

/-- JavaScript `\w` character class. -/
def isWordChar (c : Char) : Bool := c.isAlphanum || c = '_'

/-- Reserved label characters, the regex class `[><=#+\-&]` of lines 101,
115 and 128. -/
def isReservedChar (c : Char) : Bool :=
  c = '>' || c = '<' || c = '=' || c = '#' || c = '+' || c = '-' || c = '&'

/-- Split at the first occurrence of `target`: returns the content before it
and the remainder after it, or `none` when absent — the shape of a regex
fragment `([^X]*)X`. -/
def breakAtChar (target : Char) : List Char → Option (List Char × List Char)
  | [] => none
  | c :: t =>
    if c = target then some ([], t)
    else
      match breakAtChar target t with
      | none => none
      | some (pre, post) => some (c :: pre, post)

/-- Single-character global replacement, JavaScript `.replace(/c/g, rep)`. -/
def replChar (target : Char) (rep : List Char) (l : List Char) : List Char :=
  l.flatMap fun c => if c = target then rep else [c]

/-- Label escaping callback of lines 103-110 (identical at 116-123 and
129-136): seven sequential global character replacements, ampersand first. -/
def escapeLabel (label : List Char) : List Char :=
  let l := replChar '&' "&amp;".data label
  let l := replChar '>' "&gt;".data l
  let l := replChar '<' "&lt;".data l
  let l := replChar '=' "&equals;".data l
  let l := replChar '#' "&num;".data l
  let l := replChar '+' "&plus;".data l
  replChar '-' "&minus;".data l

/-- Pass 1, line 97: the global pattern `-->\|([^|]*)\|` replaced by `-->`. -/
def matchArrowPipeLabel (s : List Char) : Option (List Char × List Char) :=
  if startsWithL "-->|".data s then
    match breakAtChar '|' (s.drop 4) with
    | some (_, rest) => some ("-->".data, rest)
    | none => none
  else none

/-- Pass 2, line 98: the global pattern `--\|([^|]*)\|-->` replaced by `-->`. -/
def matchPipeLabelArrow (s : List Char) : Option (List Char × List Char) :=
  if startsWithL "--|".data s then
    match breakAtChar '|' (s.drop 3) with
    | some (_, rest) =>
      if startsWithL "-->".data rest then some ("-->".data, rest.drop 3) else none
    | none => none
  else none

/-- Pass 3, lines 101-112: brace node labels containing a reserved
character are escaped and quoted.  A match needs a maximal non-empty `\w+`
run immediately followed by an opening brace, a closing brace later, and a
reserved character in the label (the text up to the first closing brace). -/
def matchBraceEscape (s : List Char) : Option (List Char × List Char) :=
  let w := s.takeWhile isWordChar
  if w = [] then none
  else
    match s.drop w.length with
    | '{' :: r =>
      match breakAtChar '}' r with
      | some (label, rest) =>
        if label.any isReservedChar then
          some (w ++ ['{', '"'] ++ escapeLabel label ++ ['"', '}'], rest)
        else none
      | none => none
    | _ => none

/-- Pass 4, lines 115-125: the same escaping for square-bracket labels (the
label runs to the first closing bracket; `[^\]]` admits nested opening
brackets). -/
def matchBracketEscape (s : List Char) : Option (List Char × List Char) :=
  let w := s.takeWhile isWordChar
  if w = [] then none
  else
    match s.drop w.length with
    | '[' :: r =>
      match breakAtChar ']' r with
      | some (label, rest) =>
        if label.any isReservedChar then
          some (w ++ ['[', '"'] ++ escapeLabel label ++ ['"', ']'], rest)
        else none
      | none => none
    | _ => none

/-- Pass 5, lines 128-138: the global pattern `--\s*"([^"]*[><=#+\-&]+[^"]*)"\s*-->`;
quoted connection labels with reserved characters are escaped and
re-emitted as `-- "label" -->`. -/
def matchEdgeLabelEscape (s : List Char) : Option (List Char × List Char) :=
  if startsWithL "--".data s then
    let r1 := (s.drop 2).dropWhile Char.isWhitespace
    match r1 with
    | '"' :: r2 =>
      match breakAtChar '"' r2 with
      | some (label, r3) =>
        if label.any isReservedChar then
          let r4 := r3.dropWhile Char.isWhitespace
          if startsWithL "-->".data r4 then
            some ("-- \"".data ++ escapeLabel label ++ "\" -->".data, r4.drop 3)
          else none
        else none
      | none => none
    | _ => none
  else none

/-- Pass 6, line 141: literal `-->|` replaced by `-->`. -/
def matchArrowPipe (s : List Char) : Option (List Char × List Char) :=
  if startsWithL "-->|".data s then some ("-->".data, s.drop 4) else none

/-- Pass 7, line 142: literal `|-->` replaced by `-->`. -/
def matchPipeArrow (s : List Char) : Option (List Char × List Char) :=
  if startsWithL "|-->".data s then some ("-->".data, s.drop 4) else none

/-- Pass 8, lines 145-150: the global pattern `(\w+)\[([^\[\]]*[^\[\]"]+[^\[\]]*)\]` with a
callback that wraps the label in quotes unless it already starts or ends
with a quote; when the callback declines, the match is still consumed
unchanged (the regex engine advances past it either way). -/
def matchBracketQuote (s : List Char) : Option (List Char × List Char) :=
  let w := s.takeWhile isWordChar
  if w = [] then none
  else
    match s.drop w.length with
    | '[' :: r =>
      let label := r.takeWhile fun c => c ≠ '[' && c ≠ ']'
      match r.drop label.length with
      | ']' :: rest =>
        if label.any (fun c => c ≠ '"') then
          if !startsWithL ['"'] label && !startsWithL ['"'] label.reverse then
            some (w ++ ['[', '"'] ++ label ++ ['"', ']'], rest)
          else
            some (w ++ ['['] ++ label ++ [']'], rest)
        else none
      | _ => none
    | _ => none

/-- Pass 9, line 153: the global pattern `\[""([^"]+)""\]` replaced by `["$1"]`. -/
def matchBracketDoubleQuote (s : List Char) : Option (List Char × List Char) :=
  if startsWithL ['[', '"', '"'] s then
    match breakAtChar '"' (s.drop 3) with
    | some (content, r) =>
      if content ≠ [] && startsWithL ['"', ']'] r then
        some (['[', '"'] ++ content ++ ['"', ']'], r.drop 2)
      else none
    | none => none
  else none

/-- Pass 10, line 154: the same collapse for brace labels. -/
def matchBraceDoubleQuote (s : List Char) : Option (List Char × List Char) :=
  if startsWithL ['{', '"', '"'] s then
    match breakAtChar '"' (s.drop 3) with
    | some (content, r) =>
      if content ≠ [] && startsWithL ['"', '}'] r then
        some (['{', '"'] ++ content ++ ['"', '}'], r.drop 2)
      else none
    | none => none
  else none

/-- Pass 11, line 157: the global pattern `(\w+)\[([^\]]*)\]\s*--\s*(\w+)(?!\[)` replaced
by `$1["$2"] --> $3`.  The greedy final `\w+` backtracks one character when
the run is followed by an opening bracket, satisfying the negative
lookahead at the cost of leaving its last character unconsumed; a
single-character run followed by `[` fails. -/
def matchIncompleteLeft (s : List Char) : Option (List Char × List Char) :=
  let w1 := s.takeWhile isWordChar
  if w1 = [] then none
  else
    match s.drop w1.length with
    | '[' :: r =>
      match breakAtChar ']' r with
      | some (label, r3) =>
        let r4 := r3.dropWhile Char.isWhitespace
        if startsWithL "--".data r4 then
          let r6 := (r4.drop 2).dropWhile Char.isWhitespace
          let w3 := r6.takeWhile isWordChar
          if w3 = [] then none
          else
            let r7 := r6.drop w3.length
            if startsWithL ['['] r7 then
              if 2 ≤ w3.length then
                some (w1 ++ ['[', '"'] ++ label ++ "\"] --> ".data ++ w3.dropLast,
                      w3.drop (w3.length - 1) ++ r7)
              else none
            else
              some (w1 ++ ['[', '"'] ++ label ++ "\"] --> ".data ++ w3, r7)
        else none
      | none => none
    | _ => none

/-- Pass 12, line 158: the global pattern `(\w+)\s*--\s*(\w+)\[([^\]]*)\](?!\s*-->)`
replaced by `$1 --> $2["$3"]`.  The negative lookahead fails the whole
match when the bracket is followed by optional whitespace and `-->`. -/
def matchIncompleteRight (s : List Char) : Option (List Char × List Char) :=
  let w1 := s.takeWhile isWordChar
  if w1 = [] then none
  else
    let r1 := (s.drop w1.length).dropWhile Char.isWhitespace
    if startsWithL "--".data r1 then
      let r2 := (r1.drop 2).dropWhile Char.isWhitespace
      let w2 := r2.takeWhile isWordChar
      if w2 = [] then none
      else
        match r2.drop w2.length with
        | '[' :: r3 =>
          match breakAtChar ']' r3 with
          | some (label, r4) =>
            if startsWithL "-->".data (r4.dropWhile Char.isWhitespace) then none
            else
              some (w1 ++ " --> ".data ++ w2 ++ ['[', '"'] ++ label ++ ['"', ']'], r4)
          | none => none
        | _ => none
    else none

/-- Index of the last newline in a character list, if any. -/
def lastNewlinePos (run : List Char) : Option Nat :=
  match run.reverse.findIdx? (fun c => c = '\n') with
  | none => none
  | some j => some (run.length - 1 - j)

/-- Pass 13, line 161: the global multiline pattern `\s+$` replaced by the empty string.  `$` (with
the multiline flag) matches at the end of the string or before a newline,
and `\s` itself matches newlines, so a greedy whitespace run that does not
reach the end of the string backtracks to end just before the last newline
inside the run — deleting trailing whitespace and collapsing blank lines.
A match must be non-empty, so a run whose only newline is its first
character does not match at this position. -/
def matchTrailingWs (s : List Char) : Option (List Char × List Char) :=
  let run := s.takeWhile Char.isWhitespace
  if run = [] then none
  else if s.drop run.length = [] then some ([], [])
  else
    match lastNewlinePos run with
    | some k => if 1 ≤ k then some ([], s.drop k) else none
    | none => none

/-- Pass 14, line 162: three or more consecutive newlines collapse to two. -/
def matchBlankLines (s : List Char) : Option (List Char × List Char) :=
  let run := s.takeWhile (· = '\n')
  if 3 ≤ run.length then some (['\n', '\n'], s.drop run.length) else none

/-- Translation of `MermaidGenerator.sanitizeMermaidContent` (lines 94-163): the fourteen
global replacements applied in source order. -/
def sanitizeMermaidContent (content : String) : String :=
  let l := content.data
  let l := runReplace matchArrowPipeLabel l
  let l := runReplace matchPipeLabelArrow l
  let l := runReplace matchBraceEscape l
  let l := runReplace matchBracketEscape l
  let l := runReplace matchEdgeLabelEscape l
  let l := runReplace matchArrowPipe l
  let l := runReplace matchPipeArrow l
  let l := runReplace matchBracketQuote l
  let l := runReplace matchBracketDoubleQuote l
  let l := runReplace matchBraceDoubleQuote l
  let l := runReplace matchIncompleteLeft l
  let l := runReplace matchIncompleteRight l
  let l := runReplace matchTrailingWs l
  let l := runReplace matchBlankLines l
  String.mk l

/-! ### Substring test used to state the skip-reason claim -/

/-- Boolean substring test: `pat` occurs contiguously in `s`. -/
def containsL (pat : List Char) : List Char → Bool
  | [] => startsWithL pat []
  | c :: t => startsWithL pat (c :: t) || containsL pat t

/-! ### Auxiliary definitions used by the theorems -/

/-- Whether `createBuckets` skips an item: its weight alone exceeds the
hard limit. -/
def skipsFile (f : FileInfo) : Bool := decide (hardLimit < calculateFileTokens f)

/-- All items currently placed in a loop state: the closed buckets in
order, then the open bucket. -/
def accFiles (acc : BMAcc) : List FileInfo :=
  acc.buckets.flatMap (·.files) ++ acc.currentBucket

/-- Total recorded weight of a loop state. -/
def accWeight (acc : BMAcc) : Nat :=
  (acc.buckets.map (·.total_tokens)).sum + acc.currentTokenCount

/-- Invariant of the `createBuckets` loop: every closed bucket and the open
bucket respect the hard limit, and an empty open bucket carries weight
zero. -/
def BMInv (acc : BMAcc) : Prop :=
  (∀ b ∈ acc.buckets, b.total_tokens ≤ hardLimit) ∧
  acc.currentTokenCount ≤ hardLimit ∧
  (acc.currentBucket = [] → acc.currentTokenCount = 0)

/-- Target capacity 400000, the command-line default token limit. -/
def cfg400k : BMCfg := ⟨400000, 9, 10⟩

/-- Target capacity 1000 with the default soft threshold 0.9. -/
def cfg1000 : BMCfg := ⟨1000, 9, 10⟩

/-- Invariant of the `splitBucket` loop, relative to the target capacity. -/
def SInv (cfg : BMCfg) (acc : BMAcc) : Prop :=
  (∀ b ∈ acc.buckets, b.total_tokens ≤ cfg.maxTokensPerBucket) ∧
  acc.currentTokenCount ≤ cfg.maxTokensPerBucket ∧
  (acc.currentBucket = [] → acc.currentTokenCount = 0)

/-- Bucket used to refute C8: one item of weight 5000 at capacity 1000. -/
def oversizedSplitInput : ProcessingBucket :=
  { files := [{ path := "big.ts", content := "", size := 0, extension := ".ts",
                estimated_tokens := 5000 }]
    total_tokens := 5000 }

/-- Bucket used to witness the amended C8: two items of weights 900 and
800 at capacity 1000, recorded weight equal to their sum. -/
def splitWitnessInput : ProcessingBucket :=
  { files := [{ path := "p9", content := "", size := 0, extension := ".ts",
                estimated_tokens := 900 },
              { path := "p8", content := "", size := 0, extension := ".ts",
                estimated_tokens := 800 }]
    total_tokens := 1700 }

/-- Generator that always fails, used to witness C4. -/
def failingGen : Generator String := fun _ _ _ => .error "boom"

/-- Bucket list used to witness C4. -/
def witnessBucket : ProcessingBucket := { files := [], total_tokens := 0 }

/-! ### Permutation facts about the largest-first sort -/

/-- Inserting an element is a permutation of consing it. -/
theorem insertDesc_perm (f : FileInfo) (l : List FileInfo) :
    (insertDesc f l).Perm (f :: l) := by
  induction l with
  | nil => exact List.Perm.refl _
  | cons g rest ih =>
    simp only [insertDesc]
    split
    · exact List.Perm.refl _
    · exact (ih.cons g).trans (List.Perm.swap f g rest)

/-- The largest-first sort permutes its input. -/
theorem sortFilesByTokens_perm (files : List FileInfo) :
    (sortFilesByTokens files).Perm files := by
  induction files with
  | nil => exact List.Perm.refl _
  | cons f rest ih =>
    exact (insertDesc_perm f (sortFilesByTokens rest)).trans (ih.cons f)

/-! ### Invariants of the `createBuckets` loop -/

theorem createBucketsStep_accFiles (cfg : BMCfg) (acc : BMAcc) (f : FileInfo) :
    accFiles (createBucketsStep cfg acc f) =
      accFiles acc ++ (if skipsFile f then [] else [f]) := by
  simp only [createBucketsStep, skipsFile, decide_eq_true_eq]
  split_ifs <;>
    simp_all [accFiles, createBucket, List.flatMap_append, List.append_assoc]

theorem createBucketsStep_skipped (cfg : BMCfg) (acc : BMAcc) (f : FileInfo) :
    (createBucketsStep cfg acc f).skippedFiles =
      acc.skippedFiles ++
        (if skipsFile f then [mkSkipRecord f (calculateFileTokens f)] else []) := by
  simp only [createBucketsStep, skipsFile, decide_eq_true_eq]
  split_ifs <;> simp_all

theorem createBucketsStep_weight (cfg : BMCfg) (acc : BMAcc) (f : FileInfo) :
    accWeight (createBucketsStep cfg acc f) =
      accWeight acc + (if skipsFile f then 0 else calculateFileTokens f) := by
  simp only [createBucketsStep, skipsFile, decide_eq_true_eq]
  split_ifs <;> simp_all [accWeight, createBucket] <;> omega

theorem foldl_createBucketsStep_accFiles (cfg : BMCfg) (files : List FileInfo) :
    ∀ acc : BMAcc,
      accFiles (files.foldl (createBucketsStep cfg) acc) =
        accFiles acc ++ files.filter (fun f => !skipsFile f) := by
  induction files with
  | nil => intro acc; simp
  | cons f rest ih =>
    intro acc
    rw [List.foldl_cons, ih, createBucketsStep_accFiles]
    cases h : skipsFile f <;> simp [h, List.append_assoc]

theorem foldl_createBucketsStep_skipped (cfg : BMCfg) (files : List FileInfo) :
    ∀ acc : BMAcc,
      (files.foldl (createBucketsStep cfg) acc).skippedFiles =
        acc.skippedFiles ++
          (files.filter skipsFile).map (fun f => mkSkipRecord f (calculateFileTokens f)) := by
  induction files with
  | nil => intro acc; simp
  | cons f rest ih =>
    intro acc
    rw [List.foldl_cons, ih, createBucketsStep_skipped]
    cases h : skipsFile f <;> simp [h, List.append_assoc]

theorem foldl_createBucketsStep_weight (cfg : BMCfg) (files : List FileInfo) :
    ∀ acc : BMAcc,
      accWeight (files.foldl (createBucketsStep cfg) acc) =
        accWeight acc + ((files.filter (fun f => !skipsFile f)).map calculateFileTokens).sum := by
  induction files with
  | nil => intro acc; simp
  | cons f rest ih =>
    intro acc
    rw [List.foldl_cons, ih, createBucketsStep_weight]
    cases h : skipsFile f <;> simp [h] <;> omega

/-- Closing the last non-empty bucket (lines 67-69) preserves the placed
items. -/
theorem finalBuckets_flatMap (fin : BMAcc) :
    ((if 0 < fin.currentBucket.length then
        fin.buckets ++ [createBucket fin.currentBucket fin.currentTokenCount]
      else fin.buckets).flatMap (·.files)) = accFiles fin := by
  split_ifs with h
  · simp [accFiles, createBucket, List.flatMap_append]
  · have : fin.currentBucket = [] := by
      cases hc : fin.currentBucket <;> simp_all
    simp [accFiles, this]

/-- Closing the last non-empty bucket preserves the recorded total weight,
given that an empty open bucket carries weight zero. -/
theorem finalBuckets_weight (fin : BMAcc)
    (h0 : fin.currentBucket = [] → fin.currentTokenCount = 0) :
    (((if 0 < fin.currentBucket.length then
        fin.buckets ++ [createBucket fin.currentBucket fin.currentTokenCount]
      else fin.buckets).map (·.total_tokens)).sum) = accWeight fin := by
  split_ifs with h
  · simp [accWeight, createBucket]
  · have hc : fin.currentBucket = [] := by
      cases hc : fin.currentBucket <;> simp_all
    simp [accWeight, h0 hc]

/-- Closing the last non-empty bucket keeps every emitted total below a
bound satisfied by the loop state. -/
theorem finalBuckets_le (fin : BMAcc) (cap : Nat)
    (hb : ∀ b ∈ fin.buckets, b.total_tokens ≤ cap)
    (hc : fin.currentTokenCount ≤ cap) :
    ∀ b ∈ (if 0 < fin.currentBucket.length then
        fin.buckets ++ [createBucket fin.currentBucket fin.currentTokenCount]
      else fin.buckets), b.total_tokens ≤ cap := by
  split_ifs with h
  · intro b hbmem
    rcases List.mem_append.mp hbmem with hmem | hmem
    · exact hb b hmem
    · simp only [List.mem_singleton] at hmem
      subst hmem
      exact hc
  · exact hb

theorem createBucketsStep_inv (cfg : BMCfg) (acc : BMAcc) (f : FileInfo)
    (h : BMInv acc) : BMInv (createBucketsStep cfg acc f) := by
  obtain ⟨hb, hcnt, h0⟩ := h
  simp only [createBucketsStep]
  split_ifs with h1 h2 h3
  · exact ⟨hb, hcnt, h0⟩
  · refine ⟨?_, by dsimp only; omega, by simp⟩
    intro b hbmem
    rcases List.mem_append.mp hbmem with hmem | hmem
    · exact hb b hmem
    · simp only [List.mem_singleton] at hmem
      subst hmem
      exact hcnt
  · refine ⟨?_, by dsimp only; omega, by simp⟩
    intro b hbmem
    rcases List.mem_append.mp hbmem with hmem | hmem
    · exact hb b hmem
    · simp only [List.mem_singleton] at hmem
      subst hmem
      exact hcnt
  · refine ⟨hb, ?_, by simp⟩
    dsimp only
    by_cases hcur : acc.currentBucket = []
    · have := h0 hcur
      omega
    · have hlen : 0 < acc.currentBucket.length := by
        cases hc : acc.currentBucket <;> simp_all
      have : ¬ hardLimit < acc.currentTokenCount + calculateFileTokens f := by
        intro hlt
        exact h2 ⟨hlt, hlen⟩
      omega

theorem foldl_createBucketsStep_inv (cfg : BMCfg) (files : List FileInfo) :
    ∀ acc : BMAcc, BMInv acc → BMInv (files.foldl (createBucketsStep cfg) acc) := by
  induction files with
  | nil => intro acc h; exact h
  | cons f rest ih =>
    intro acc h
    exact ih _ (createBucketsStep_inv cfg acc f h)

/-- Items placed by `createBuckets`: the non-skipped items of the sorted
copy, in placement order. -/
theorem createBuckets_flatMap (cfg : BMCfg) (files : List FileInfo) :
    (createBuckets cfg files).buckets.flatMap (·.files) =
      (sortFilesByTokens files).filter (fun f => !skipsFile f) := by
  simp only [createBuckets]
  rw [finalBuckets_flatMap, foldl_createBucketsStep_accFiles]
  simp [accFiles]

/-- Skip records produced by `createBuckets`: one per skipped item of the
sorted copy, in order. -/
theorem createBuckets_skipRecords (cfg : BMCfg) (files : List FileInfo) :
    (createBuckets cfg files).skippedFiles =
      ((sortFilesByTokens files).filter skipsFile).map
        (fun f => mkSkipRecord f (calculateFileTokens f)) := by
  simp only [createBuckets]
  rw [foldl_createBucketsStep_skipped]
  simp

/-- Emitted bucket weights of `createBuckets` sum to the total weight of
the non-skipped items. -/
theorem createBuckets_weightSum (cfg : BMCfg) (files : List FileInfo) :
    ((createBuckets cfg files).buckets.map (·.total_tokens)).sum =
      (((sortFilesByTokens files).filter (fun f => !skipsFile f)).map calculateFileTokens).sum := by
  simp only [createBuckets]
  have hinv := foldl_createBucketsStep_inv cfg (sortFilesByTokens files)
    ⟨[], [], 0, []⟩ ⟨by simp, by simp [hardLimit], by simp⟩
  rw [finalBuckets_weight _ hinv.2.2, foldl_createBucketsStep_weight]
  simp [accWeight]

/-- Splitting a list by a Boolean predicate is a permutation-preserving
partition. -/
theorem filter_partition_perm {α : Type} (p : α → Bool) (l : List α) :
    (l.filter p ++ l.filter (fun x => !p x)).Perm l := by
  induction l with
  | nil => exact List.Perm.refl _
  | cons a t ih =>
    cases hp : p a
    · simp only [List.filter_cons, hp, Bool.not_false, if_neg, cond_false, cond_true]
      exact List.perm_middle.trans (ih.cons a)
    · simp only [List.filter_cons, hp, Bool.not_true, cond_false, cond_true]
      exact ih.cons a

/-- Weights of a partitioned list sum to the whole. -/
theorem sum_map_filter_add {α : Type} (g : α → Nat) (p : α → Bool) (l : List α) :
    ((l.filter p).map g).sum + ((l.filter (fun x => !p x)).map g).sum =
      (l.map g).sum := by
  induction l with
  | nil => rfl
  | cons a t ih =>
    cases hp : p a <;> simp [List.filter_cons, hp] <;> omega

/-! ### Claim C1 -/

/-- C1: for every input list, the emitted bucket weights plus the skipped
item weights sum to the total input weight; as multisets, the items placed
in buckets plus the skipped items are exactly the input items (each input
item lands in exactly one bucket or is skipped, never both, never
neither); and the skip records are exactly one record, in order, per
skipped item. -/
theorem createBuckets_conservation (cfg : BMCfg) (files : List FileInfo) :
    ((createBuckets cfg files).buckets.map (·.total_tokens)).sum +
        ((files.filter skipsFile).map calculateFileTokens).sum =
      (files.map calculateFileTokens).sum ∧
    (↑((createBuckets cfg files).buckets.flatMap (·.files)) +
        ↑(files.filter skipsFile) : Multiset FileInfo) = ↑files ∧
    (createBuckets cfg files).skippedFiles =
      ((sortFilesByTokens files).filter skipsFile).map
        (fun f => mkSkipRecord f (calculateFileTokens f)) := by
  have hperm := sortFilesByTokens_perm files
  refine ⟨?_, ?_, createBuckets_skipRecords cfg files⟩
  · rw [createBuckets_weightSum]
    have h1 : (((sortFilesByTokens files).filter (fun f => !skipsFile f)).map
        calculateFileTokens).sum =
        ((files.filter (fun f => !skipsFile f)).map calculateFileTokens).sum :=
      ((hperm.filter _).map calculateFileTokens).sum_eq
    have h2 := sum_map_filter_add calculateFileTokens skipsFile files
    omega
  · rw [createBuckets_flatMap]
    have h1 : (↑((sortFilesByTokens files).filter (fun f => !skipsFile f)) :
        Multiset FileInfo) = ↑(files.filter (fun f => !skipsFile f)) :=
      Multiset.coe_eq_coe.mpr (hperm.filter _)
    rw [h1]
    have h3 := filter_partition_perm skipsFile files
    calc (↑(files.filter fun f => !skipsFile f) + ↑(files.filter skipsFile) :
          Multiset FileInfo)
        = ↑(files.filter skipsFile) + ↑(files.filter fun f => !skipsFile f) := by
          rw [add_comm]
      _ = ↑(files.filter skipsFile ++ files.filter fun f => !skipsFile f) := by
          rw [Multiset.coe_add]
      _ = ↑files := Multiset.coe_eq_coe.mpr h3

/-! ### Claim C2 (corrected) -/

/-- C2 counterexample: with the default CLI target capacity of 400000, a
single `addFileToBucket` call accepts a 150000-token file into an empty
bucket, leaving a mutated bucket whose weight exceeds the hard ceiling of
100000 — refuting the claim that every bucket mutated by addItem stays at
or below 100000. -/
theorem addFileToBucket_exceeds_hardLimit :
    (addFileToBucket cfg400k { files := [], total_tokens := 0 }
        { path := "big.ts", content := "", size := 7, extension := ".ts",
          estimated_tokens := 150000 }).1 = true ∧
    (addFileToBucket cfg400k { files := [], total_tokens := 0 }
        { path := "big.ts", content := "", size := 7, extension := ".ts",
          estimated_tokens := 150000 }).2.total_tokens = 150000 ∧
    ¬ ((addFileToBucket cfg400k { files := [], total_tokens := 0 }
        { path := "big.ts", content := "", size := 7, extension := ".ts",
          estimated_tokens := 150000 }).2.total_tokens ≤ hardLimit) := by
  decide

/-- C2 amended: every bucket emitted by `createBuckets` has weight at most
the hard ceiling 100000, for every configuration and input list; but
`addFileToBucket` only bounds the mutated bucket by the target capacity
`maxTokensPerBucket` (or leaves it unchanged), so its weight stays at most
`max maxTokensPerBucket (previous weight)` — which is within 100000 only
when the target capacity is. -/
theorem bucket_weight_bounds (cfg : BMCfg) (files : List FileInfo)
    (bucket : ProcessingBucket) (file : FileInfo) :
    ((createBuckets cfg files).buckets.all
        (fun b => decide (b.total_tokens ≤ hardLimit))) = true ∧
    (addFileToBucket cfg bucket file).2.total_tokens ≤
      max cfg.maxTokensPerBucket bucket.total_tokens := by
  constructor
  · rw [List.all_eq_true]
    intro b hb
    have hinv := foldl_createBucketsStep_inv cfg (sortFilesByTokens files)
      ⟨[], [], 0, []⟩ ⟨by simp, by simp [hardLimit], by simp⟩
    simp only [createBuckets] at hb
    exact decide_eq_true (finalBuckets_le _ hardLimit hinv.1 hinv.2.1 b hb)
  · simp only [addFileToBucket]
    split_ifs with h
    · exact le_trans h (le_max_left _ _)
    · exact le_max_right _ _

/-! ### Claim C5 -/

/-- C5: items of weights 200, 300, 400, 500 at target capacity 1000, soft
threshold 0.9, hard ceiling 100000 pack into exactly two buckets of
aggregate weights 900 and 500. -/
theorem createBuckets_example_weights :
    ((createBuckets cfg1000
        [{ path := "a", content := "", size := 0, extension := ".ts", estimated_tokens := 200 },
         { path := "b", content := "", size := 0, extension := ".ts", estimated_tokens := 300 },
         { path := "c", content := "", size := 0, extension := ".ts", estimated_tokens := 400 },
         { path := "d", content := "", size := 0, extension := ".ts", estimated_tokens := 500 }]).buckets.length = 2) ∧
    ((createBuckets cfg1000
        [{ path := "a", content := "", size := 0, extension := ".ts", estimated_tokens := 200 },
         { path := "b", content := "", size := 0, extension := ".ts", estimated_tokens := 300 },
         { path := "c", content := "", size := 0, extension := ".ts", estimated_tokens := 400 },
         { path := "d", content := "", size := 0, extension := ".ts", estimated_tokens := 500 }]).buckets.map
      (·.total_tokens)) = [900, 500] := by
  decide

/-! ### Claim C6 -/

/-- C6: a single item of weight 500000 against the hard ceiling 100000
yields zero buckets and exactly one skip record, whose reason text
contains "exceeds hard limit" and states the ceiling and the estimated
weight. -/
theorem createBuckets_oversized_item_skipped :
    (createBuckets cfg1000
        [{ path := "huge.ts", content := "", size := 123, extension := ".ts",
           estimated_tokens := 500000 }]).buckets = [] ∧
    (createBuckets cfg1000
        [{ path := "huge.ts", content := "", size := 123, extension := ".ts",
           estimated_tokens := 500000 }]).skippedFiles =
      [{ path := "huge.ts", size := 123,
         reason := "File exceeds hard limit of 100000 tokens (estimated: 500000 tokens)" }] ∧
    ((createBuckets cfg1000
        [{ path := "huge.ts", content := "", size := 123, extension := ".ts",
           estimated_tokens := 500000 }]).skippedFiles.map
      (fun sk => containsL "exceeds hard limit".data sk.reason.data)) = [true] := by
  decide

/-! ### Claim C9 -/

/-- C9: `createBuckets` does not mutate the caller's array — its contents
after the call are the input, element for element — because the
largest-first sort operates on a private copy, which is a permutation of
the input. -/
theorem createBuckets_preserves_input (cfg : BMCfg) (files : List FileInfo) :
    (createBuckets cfg files).filesAfter = files ∧
    (sortFilesByTokens files).Perm files :=
  ⟨rfl, sortFilesByTokens_perm files⟩

/-! ### Claim C7 -/

/-- C7: `mergeBuckets` returns a bucket exactly when the combined weight
fits the target capacity; it leaves both argument buckets unchanged; and a
successful merge carries the concatenated item lists and the summed
weight. -/
theorem mergeBuckets_spec (cfg : BMCfg) (A B : ProcessingBucket) :
    ((mergeBuckets cfg A B).1.isSome ↔
      A.total_tokens + B.total_tokens ≤ cfg.maxTokensPerBucket) ∧
    (mergeBuckets cfg A B).2.1 = A ∧
    (mergeBuckets cfg A B).2.2 = B ∧
    ∀ m, (mergeBuckets cfg A B).1 = some m →
      m.files = A.files ++ B.files ∧
      m.total_tokens = A.total_tokens + B.total_tokens := by
  simp only [mergeBuckets]
  split_ifs with h
  · refine ⟨by simpa using h, rfl, rfl, ?_⟩
    intro m hm
    simp only [Option.some.injEq] at hm
    subst hm
    exact ⟨rfl, rfl⟩
  · refine ⟨by simpa using h, rfl, rfl, ?_⟩
    intro m hm
    simp at hm

/-- Witness for C7 at a concrete input: merging buckets of weights 300 and
400 at capacity 1000 succeeds, and the merged bucket carries the
concatenated files and weight 700. -/
theorem mergeBuckets_spec_witness :
    ({ files := [], total_tokens := 700 } : ProcessingBucket).files =
        ({ files := [], total_tokens := 300 } : ProcessingBucket).files ++
          ({ files := [], total_tokens := 400 } : ProcessingBucket).files ∧
    ({ files := [], total_tokens := 700 } : ProcessingBucket).total_tokens =
        ({ files := [], total_tokens := 300 } : ProcessingBucket).total_tokens +
          ({ files := [], total_tokens := 400 } : ProcessingBucket).total_tokens :=
  (mergeBuckets_spec cfg1000 { files := [], total_tokens := 300 }
      { files := [], total_tokens := 400 }).2.2.2
    { files := [], total_tokens := 700 } (by decide)

/-! ### Claim C8 (corrected) -/

theorem splitBucketStep_accFiles (cfg : BMCfg) (acc : BMAcc) (f : FileInfo) :
    accFiles (splitBucketStep cfg acc f) = accFiles acc ++ [f] := by
  simp only [splitBucketStep]
  split_ifs <;>
    simp_all [accFiles, createBucket, List.flatMap_append, List.append_assoc]

theorem splitBucketStep_weight (cfg : BMCfg) (acc : BMAcc) (f : FileInfo) :
    accWeight (splitBucketStep cfg acc f) = accWeight acc + calculateFileTokens f := by
  simp only [splitBucketStep]
  split_ifs <;> simp_all [accWeight, createBucket] <;> omega

theorem foldl_splitBucketStep_accFiles (cfg : BMCfg) (files : List FileInfo) :
    ∀ acc : BMAcc,
      accFiles (files.foldl (splitBucketStep cfg) acc) = accFiles acc ++ files := by
  induction files with
  | nil => intro acc; simp
  | cons f rest ih =>
    intro acc
    rw [List.foldl_cons, ih, splitBucketStep_accFiles]
    simp [List.append_assoc]

theorem foldl_splitBucketStep_weight (cfg : BMCfg) (files : List FileInfo) :
    ∀ acc : BMAcc,
      accWeight (files.foldl (splitBucketStep cfg) acc) =
        accWeight acc + (files.map calculateFileTokens).sum := by
  induction files with
  | nil => intro acc; simp
  | cons f rest ih =>
    intro acc
    rw [List.foldl_cons, ih, splitBucketStep_weight]
    simp
    omega

theorem splitBucketStep_inv (cfg : BMCfg) (acc : BMAcc) (f : FileInfo)
    (hf : calculateFileTokens f ≤ cfg.maxTokensPerBucket)
    (h : SInv cfg acc) : SInv cfg (splitBucketStep cfg acc f) := by
  obtain ⟨hb, hcnt, h0⟩ := h
  simp only [splitBucketStep]
  split_ifs with h1
  · refine ⟨?_, by dsimp only; omega, by simp⟩
    intro b hbmem
    rcases List.mem_append.mp hbmem with hmem | hmem
    · exact hb b hmem
    · simp only [List.mem_singleton] at hmem
      subst hmem
      exact hcnt
  · refine ⟨hb, ?_, by simp⟩
    dsimp only
    by_cases hcur : acc.currentBucket = []
    · have := h0 hcur
      omega
    · have hlen : 0 < acc.currentBucket.length := by
        cases hc : acc.currentBucket <;> simp_all
      have : ¬ cfg.maxTokensPerBucket < acc.currentTokenCount + calculateFileTokens f := by
        intro hlt
        exact h1 ⟨hlt, hlen⟩
      omega

theorem foldl_splitBucketStep_inv (cfg : BMCfg) (files : List FileInfo) :
    ∀ acc : BMAcc, (∀ f ∈ files, calculateFileTokens f ≤ cfg.maxTokensPerBucket) →
      SInv cfg acc → SInv cfg (files.foldl (splitBucketStep cfg) acc) := by
  induction files with
  | nil => intro acc _ h; exact h
  | cons f rest ih =>
    intro acc hf h
    exact ih _ (fun g hg => hf g (List.mem_cons_of_mem f hg))
      (splitBucketStep_inv cfg acc f (hf f (List.mem_cons_self f rest)) h)

/-- C8 counterexample: a bucket holding a single item of weight 5000 at
target capacity 1000 is over capacity, yet `splitBucket` returns a single
bucket — not at least two — and that bucket still exceeds the capacity. -/
theorem splitBucket_oversized_counterexample :
    cfg1000.maxTokensPerBucket < oversizedSplitInput.total_tokens ∧
    (splitBucket cfg1000 oversizedSplitInput).length = 1 ∧
    ((splitBucket cfg1000 oversizedSplitInput).map (·.total_tokens)) = [5000] ∧
    ¬ (2 ≤ (splitBucket cfg1000 oversizedSplitInput).length) ∧
    ((splitBucket cfg1000 oversizedSplitInput).all
      (fun b => decide (b.total_tokens ≤ cfg1000.maxTokensPerBucket))) = false := by
  decide

/-- C8 amended: `splitBucket` is the identity (as a one-element list) at or
below target capacity; it always preserves the bucket's items exactly, as a
multiset; and when the bucket is over capacity, its recorded weight is the
sum of its item weights, and every single item fits the target capacity,
the result is at least two buckets, none exceeding the target capacity.
(The extra premises are forced by the counterexample: a single item heavier
than the capacity yields one over-capacity bucket.) -/
theorem splitBucket_spec (cfg : BMCfg) (B : ProcessingBucket) :
    (B.total_tokens ≤ cfg.maxTokensPerBucket → splitBucket cfg B = [B]) ∧
    (↑((splitBucket cfg B).flatMap (·.files)) : Multiset FileInfo) = ↑B.files ∧
    (cfg.maxTokensPerBucket < B.total_tokens →
      B.total_tokens = (B.files.map calculateFileTokens).sum →
      (∀ f ∈ B.files, calculateFileTokens f ≤ cfg.maxTokensPerBucket) →
      2 ≤ (splitBucket cfg B).length ∧
      ∀ b ∈ splitBucket cfg B, b.total_tokens ≤ cfg.maxTokensPerBucket) := by
  refine ⟨fun h => by simp [splitBucket, h], ?_, ?_⟩
  · by_cases h : B.total_tokens ≤ cfg.maxTokensPerBucket
    · simp [splitBucket, h]
    · simp only [splitBucket, if_neg h]
      rw [finalBuckets_flatMap, foldl_splitBucketStep_accFiles]
      simp only [accFiles, List.flatMap_nil, List.nil_append]
      exact Multiset.coe_eq_coe.mpr (sortFilesByTokens_perm B.files)
  · intro hover hsum hbound
    have hnotle : ¬ B.total_tokens ≤ cfg.maxTokensPerBucket := not_le.mpr hover
    have hsorted : ∀ f ∈ sortFilesByTokens B.files,
        calculateFileTokens f ≤ cfg.maxTokensPerBucket := by
      intro f hf
      exact hbound f ((sortFilesByTokens_perm B.files).mem_iff.mp hf)
    have hinv := foldl_splitBucketStep_inv cfg (sortFilesByTokens B.files)
      ⟨[], [], 0, []⟩ hsorted ⟨by simp, by simp, by simp⟩
    have hble : ∀ b ∈ splitBucket cfg B, b.total_tokens ≤ cfg.maxTokensPerBucket := by
      simp only [splitBucket, if_neg hnotle]
      exact finalBuckets_le _ _ hinv.1 hinv.2.1
    have hw : ((splitBucket cfg B).map (·.total_tokens)).sum = B.total_tokens := by
      simp only [splitBucket, if_neg hnotle]
      rw [finalBuckets_weight _ hinv.2.2, foldl_splitBucketStep_weight]
      simp only [accWeight, List.map_nil, List.sum_nil, Nat.zero_add]
      rw [hsum]
      exact ((sortFilesByTokens_perm B.files).map calculateFileTokens).sum_eq
    refine ⟨?_, hble⟩
    by_contra hlen
    push_neg at hlen
    have hmap : ∀ x ∈ (splitBucket cfg B).map (·.total_tokens),
        x ≤ cfg.maxTokensPerBucket := by
      intro x hx
      obtain ⟨b, hbmem, hbx⟩ := List.mem_map.mp hx
      exact hbx ▸ hble b hbmem
    have hcard := List.sum_le_card_nsmul _ _ hmap
    simp only [smul_eq_mul, List.length_map] at hcard
    have hlc : (splitBucket cfg B).length * cfg.maxTokensPerBucket ≤
        1 * cfg.maxTokensPerBucket :=
      Nat.mul_le_mul_right _ (by omega)
    omega

/-- Witness for the amended C8 at a concrete over-capacity bucket. -/
theorem splitBucket_spec_witness :
    2 ≤ (splitBucket cfg1000 splitWitnessInput).length :=
  ((splitBucket_spec cfg1000 splitWitnessInput).2.2 (by decide) (by decide)
    (by decide)).1

/-! ### Claims C4 and C10 -/

/-- Behaviour of the `processBuckets` loop, for any starting index and
state: a successful run submits every bucket in order, and a failed run's
submission trace is a prefix of the buckets whose last submitted call
returned exactly the propagated error. -/
theorem processBucketsGo_spec {E : Type} (gen : Generator E) :
    ∀ (bs : List ProcessingBucket) (i : Nat) (st : ProcessingState),
      (∀ s, (processBucketsGo gen bs i st).1 = .ok s →
        (processBucketsGo gen bs i st).2.map (·.1) = bs) ∧
      (∀ e, (processBucketsGo gen bs i st).1 = .error e →
        ∃ done c, (processBucketsGo gen bs i st).2 = done ++ [c] ∧
          gen c.1 c.2.1 c.2.2 = .error e ∧
          (processBucketsGo gen bs i st).2.map (·.1) =
            bs.take ((processBucketsGo gen bs i st).2.length) ∧
          (processBucketsGo gen bs i st).2.length ≤ bs.length) := by
  intro bs
  induction bs with
  | nil =>
    intro i st
    constructor
    · intro s _h
      rfl
    · intro e he
      simp [processBucketsGo] at he
  | cons b rest ih =>
    intro i st
    simp only [processBucketsGo]
    cases hg : gen b st.accumulated_summary st.accumulated_mermaid with
    | error e' =>
      constructor
      · intro s hs
        simp at hs
      · intro e he
        simp only [Except.error.injEq] at he
        subst he
        refine ⟨[], (b, st.accumulated_summary, st.accumulated_mermaid), rfl, hg, ?_, ?_⟩
        · simp
        · simp
    | ok response =>
      constructor
      · intro s hs
        have := (ih (i + 1) _).1 s hs
        simpa using this
      · intro e he
        obtain ⟨done, c, htr, hc, hmap, hlen⟩ := (ih (i + 1) _).2 e he
        refine ⟨(b, st.accumulated_summary, st.accumulated_mermaid) :: done, c, ?_, hc, ?_, ?_⟩
        · simp [htr]
        · simp only [List.map_cons, List.length_cons, List.take_succ_cons]
          rw [hmap]
        · simp only [List.length_cons]
          omega

/-- C4: if the generator fails on a bucket, `processBuckets` propagates
that very error as its result and aborts the run: the submission trace is
the prefix of the bucket list ending at the failing bucket (no later
bucket is ever submitted), and the last submitted call is the one that
returned the error; conversely, a successful run submits every bucket. -/
theorem processBuckets_error_aborts {E : Type} (gen : Generator E)
    (buckets : List ProcessingBucket) (existingMermaid : Option String) :
    (∀ s, (processBuckets gen buckets existingMermaid).1 = .ok s →
      (processBuckets gen buckets existingMermaid).2.map (·.1) = buckets) ∧
    (∀ e, (processBuckets gen buckets existingMermaid).1 = .error e →
      ∃ done c, (processBuckets gen buckets existingMermaid).2 = done ++ [c] ∧
        gen c.1 c.2.1 c.2.2 = .error e ∧
        (processBuckets gen buckets existingMermaid).2.map (·.1) =
          buckets.take ((processBuckets gen buckets existingMermaid).2.length) ∧
        (processBuckets gen buckets existingMermaid).2.length ≤ buckets.length) :=
  processBucketsGo_spec gen buckets 0 _

/-- Witness for C4: with an always-failing generator and one bucket, the
failed run's trace is the one-bucket prefix and no more. -/
theorem processBuckets_error_aborts_witness :
    (processBuckets failingGen [witnessBucket] none).2.map (·.1) =
      [witnessBucket].take ((processBuckets failingGen [witnessBucket] none).2.length) ∧
    (processBuckets failingGen [witnessBucket] none).2.length ≤ 1 := by
  obtain ⟨done, c, _h1, _h2, h3, h4⟩ :=
    (processBuckets_error_aborts failingGen [witnessBucket] none).2 "boom" rfl
  exact ⟨h3, by simpa using h4⟩

/-- C10: on an empty bucket list the generator is never invoked (empty
submission trace) and the returned state has zero counts, an empty
summary, and the supplied prior diagram — or the empty string when none is
given. -/
theorem processBuckets_empty {E : Type} (gen : Generator E)
    (existingMermaid : Option String) :
    processBuckets gen [] existingMermaid =
      (.ok { current_bucket_index := 0, total_buckets := 0, processed_files := 0,
             total_files := 0, accumulated_summary := "",
             accumulated_mermaid := existingMermaid.getD "" }, []) ∧
    processBuckets gen [] (none : Option String) =
      (.ok { current_bucket_index := 0, total_buckets := 0, processed_files := 0,
             total_files := 0, accumulated_summary := "",
             accumulated_mermaid := "" }, []) :=
  ⟨rfl, rfl⟩

/-! ### Claim C3 (violated by the code) -/

/-- C3 is violated: the sanitize transform is not idempotent.  On the
input `A` followed by the brace label `a&b`, one application escapes the
ampersand and quotes the label; a second application re-escapes the
ampersand of the entity `&amp;` (the escape pass matches any brace label
containing a reserved character, including ones it already escaped),
yielding `&amp;amp;` — so the second output differs from the first. -/
theorem sanitizeMermaidContent_not_idempotent :
    sanitizeMermaidContent "A\x7ba&b\x7d" = "A\x7b\"a&amp;b\"\x7d" ∧
    sanitizeMermaidContent (sanitizeMermaidContent "A\x7ba&b\x7d") =
      "A\x7b\"a&amp;amp;b\"\x7d" ∧
    sanitizeMermaidContent (sanitizeMermaidContent "A\x7ba&b\x7d") ≠
      sanitizeMermaidContent "A\x7ba&b\x7d" := by
  decide
